import Mathlib

/-
Verification of the yue excerpt: the Lua value bridge
(src/lua_yue/binding_values.cc), the native-object marshaller
(src/lua/metatable.h) and the table backends
(src/nativeui/win/table_win.cc, src/nativeui/gtk/table_gtk.cc),
shallowly embedded in Lean.
-/

namespace Yue

/-! ## Value bridge (src/lua_yue/binding_values.cc)

`BValue` embeds `base::Value`: a tagged union over none / bool / 32-bit int /
double / string / binary blob / string-keyed dict / ordered list.  Doubles are
carried exactly (as rationals); the bridge only passes them through and never
computes with them.  A dict is the entry list of the underlying string-keyed
map in iteration order.  `LuaValue` embeds one Lua stack slot: `integer` and
`number` are the two subtypes of the Lua `Number` type (`lua_isinteger`
distinguishes them); a table is its entry list in `lua_next` enumeration
order; `other` stands for the slot types the bridge does not handle
(function, userdata, thread). -/

inductive BValue where
  | none
  | bool (b : Bool)
  | int (i : Int)
  | double (d : ℚ)
  | str (s : String)
  | binary (bytes : List Nat)
  | dict (entries : List (String × BValue))
  | list (items : List BValue)

inductive LuaValue where
  | nil
  | boolean (b : Bool)
  | integer (i : Int)
  | number (d : ℚ)
  | str (s : String)
  | table (entries : List (LuaValue × LuaValue))
  | other

/-- Result of `static_cast<int>` on a 64-bit `lua_Integer` under two's
complement: wrap into the 32-bit signed range. -/
def toInt32 (i : Int) : Int :=
  (i + 2 ^ 31) % 2 ^ 32 - 2 ^ 31

/-- Whether `GetType` reports `LuaType::Number` for the slot. -/
def LuaValue.isNumber : LuaValue → Bool
  | .integer _ => true
  | .number _ => true
  | _ => false

/-- Whether the slot is a Lua string. -/
def LuaValue.isStr : LuaValue → Bool
  | .str _ => true
  | _ => false

/-- `lua_tointeger` on a slot already known to be a `Number`: an
integer-subtype value is returned as is; a float-subtype value converts when
it is integral and otherwise yields 0 (not convertible).  `IsTableArray` only
calls this after its `Number` type check, so the other cases are unreachable
there. -/
def luaToInteger : LuaValue → Int
  | .integer i => i
  | .number d => if d.den = 1 then d.num else 0
  | _ => 0

/-- `IsTableArray` (binding_values.cc lines 19-31): walk the entries in
enumeration order keeping a running count `size`; every key must have type
`Number` and `lua_tointeger` value `size + 1`.  The table is an array iff the
walk exhausts the entries. -/
def IsTableArray : List (LuaValue × LuaValue) → Nat → Bool
  | [], _ => true
  | (k, _) :: rest, size =>
    k.isNumber && (luaToInteger k == (size : Int) + 1) && IsTableArray rest (size + 1)

/-- Modelled from the spec: `Type<std::string>::To` (lua/types.h, not part of
the excerpt), used on table keys in the mapping branch.  The spec states that
non-string keys cause a conversion failure, so only a string key converts. -/
def toStringKey : LuaValue → Option String
  | .str s => some s
  | _ => none

/-- `base::Value::Dict::Set` on the entry-list representation: replace the
value of an existing key, otherwise add the entry. -/
def DictSet : List (String × BValue) → String → BValue → List (String × BValue)
  | [], k, v => [(k, v)]
  | (k0, v0) :: rest, k, v =>
    if k0 = k then (k0, v) :: rest else (k0, v0) :: DictSet rest k v

mutual

/-- `Type<base::Value>::Push` (binding_values.cc lines 36-77), expressed as
the single Lua value the call leaves on the stack.  NONE pushes nil; BINARY
pushes the bytes as a Lua string (`lua_pushlstring`); DICT pushes a table
keyed by the entry strings; LIST pushes a table keyed 1..N. -/
def ValuePush : BValue → LuaValue
  | .none => .nil
  | .bool b => .boolean b
  | .int i => .integer i
  | .double d => .number d
  | .str s => .str s
  | .binary bs => .str (String.mk (bs.map Char.ofNat))
  | .dict es => .table (PushEntries es)
  | .list xs => .table (PushItems 0 xs)

/-- The DICT loop of `Type<base::Value>::Push`: each entry becomes a table
entry with the key pushed as a Lua string. -/
def PushEntries : List (String × BValue) → List (LuaValue × LuaValue)
  | [] => []
  | (k, v) :: rest => (.str k, ValuePush v) :: PushEntries rest

/-- The LIST loop of `Type<base::Value>::Push`: element `i` (0-based) is
stored under the integer key `i + 1`. -/
def PushItems : Nat → List BValue → List (LuaValue × LuaValue)
  | _, [] => []
  | i, x :: rest => (.integer ((i : Int) + 1), ValuePush x) :: PushItems (i + 1) rest

end

mutual

/-- `Type<base::Value>::To` (binding_values.cc lines 80-126).  `none` is a
failed conversion (the C++ function returning false); note the `default`
branch of the switch — reached for nil, functions, userdata, threads — sets
the output to an empty `base::Value` and returns true. -/
def ValueTo : LuaValue → Option BValue
  | .integer i => some (.int (toInt32 i))
  | .number d => some (.double d)
  | .boolean b => some (.bool b)
  | .str s => some (.str s)
  | .table es =>
    if IsTableArray es 0 then
      match ListTo es with
      | some xs => some (.list xs)
      | none => none
    else
      match DictTo es [] with
      | some d => some (.dict d)
      | none => none
  | .nil => some .none
  | .other => some .none

/-- Modelled from the spec: the array branch delegates to the
`std::vector<base::Value>` conversion (lua/table.h, not part of the excerpt),
which reads positions 1..N of the table.  Under the `IsTableArray` guard the
keys in enumeration order are exactly 1..N, so this reads each entry's value
in order, failing when any element conversion fails. -/
def ListTo : List (LuaValue × LuaValue) → Option (List BValue)
  | [] => some []
  | (_, v) :: rest =>
    match ValueTo v with
    | some bv =>
      match ListTo rest with
      | some xs => some (bv :: xs)
      | none => none
    | none => none

/-- The mapping branch of `Type<base::Value>::To`: enumerate the entries; the
key must convert to a string and the value must convert recursively, each
converted pair being `Set` into the accumulated dict; any failure aborts the
whole conversion. -/
def DictTo : List (LuaValue × LuaValue) → List (String × BValue) →
    Option (List (String × BValue))
  | [], acc => some acc
  | (k, v) :: rest, acc =>
    match toStringKey k with
    | some s =>
      match ValueTo v with
      | some bv => DictTo rest (DictSet acc s bv)
      | none => none
    | none => none

end

/-- Keys of a dict entry list are pairwise distinct (the invariant of the
underlying `base::Value::Dict` map). -/
def NodupKeys : List (String × BValue) → Bool
  | [] => true
  | (k, _) :: rest => !(rest.any fun kv => kv.1 == k) && NodupKeys rest

mutual

/-- Well-formedness of a `base::Value`: INTEGER payloads fit in 32-bit
signed range (the C++ field is `int`) and dict keys are distinct,
recursively. -/
def wfB : BValue → Bool
  | .int i => decide (-(2 ^ 31) ≤ i) && decide (i < 2 ^ 31)
  | .dict es => NodupKeys es && wfEntries es
  | .list xs => wfList xs
  | _ => true

def wfEntries : List (String × BValue) → Bool
  | [] => true
  | (_, v) :: rest => wfB v && wfEntries rest

def wfList : List BValue → Bool
  | [] => true
  | x :: rest => wfB x && wfList rest

end

mutual

/-- No component of the value is a binary blob or an empty dict — the two
shapes whose push/read round trip changes the tag (binary comes back as a
string, an empty dict comes back as an empty list). -/
def lossless : BValue → Bool
  | .binary _ => false
  | .dict [] => false
  | .dict es => losslessEntries es
  | .list xs => losslessList xs
  | _ => true

def losslessEntries : List (String × BValue) → Bool
  | [] => true
  | (_, v) :: rest => lossless v && losslessEntries rest

def losslessList : List BValue → Bool
  | [] => true
  | x :: rest => lossless x && losslessList rest

end

/-- Slot types the value bridge has no case for: neither number, boolean,
string nor table — these reach the `default` branch of
`Type<base::Value>::To`. -/
def bridgeUnsupported : LuaValue → Bool
  | .nil => true
  | .other => true
  | _ => false

/-! ## Native object marshaller (src/lua/metatable.h)

Native pointers are modelled as naturals, 0 being null.  For the
strong (RefCounted) push path the observable state is the identity side
table (native pointer to wrapper id), the per-object reference counts, the
id counter for fresh wrappers, and the Lua stack of pushed slots.  The side
table helpers `WrapperTableGet` / `WrapperTableSet` live in
metatable_internal.h, outside the excerpt; they are modelled from the spec:
the table maps a native pointer identity to its existing live wrapper, a hit
pushes that wrapper, and a miss lets the caller record the fresh one. -/

inductive WrapSlot where
  | nil
  | userdata (id : Nat)
deriving DecidableEq

structure MarshalState where
  wrapperTable : List (Nat × Nat)
  refCount : List (Nat × Nat)
  nextId : Nat
  stack : List WrapSlot
deriving DecidableEq

/-- Association-list lookup by pointer key. -/
def alookup : List (Nat × Nat) → Nat → Option Nat
  | [], _ => none
  | (k, v) :: rest, key => if key = k then some v else alookup rest key

/-- `AddRef` on the object behind `p`: bump its reference count. -/
def AddRef : List (Nat × Nat) → Nat → List (Nat × Nat)
  | [], p => [(p, 1)]
  | (k, v) :: rest, p => if p = k then (k, v + 1) :: rest else (k, v) :: AddRef rest p

/-- The reference count of the object behind `p` (0 when never referenced). -/
def rc (s : MarshalState) (p : Nat) : Nat :=
  (alookup s.refCount p).getD 0

/-- `Type<T*>::Push`, RefCounted specialization (metatable.h lines 103-113):
a null pointer pushes nil; a side-table hit pushes the existing wrapper and
does nothing else; a miss allocates a fresh wrapper (whose construction,
`UserData<T>::Construct` at lines 19-22, performs exactly one `AddRef`),
records it in the side table and assigns the metatable. -/
def RefCountedPush (s : MarshalState) (p : Nat) : MarshalState :=
  if p = 0 then
    { s with stack := .nil :: s.stack }
  else
    match alookup s.wrapperTable p with
    | some h => { s with stack := .userdata h :: s.stack }
    | none =>
      { wrapperTable := (p, s.nextId) :: s.wrapperTable
        refCount := AddRef s.refCount p
        nextId := s.nextId + 1
        stack := .userdata s.nextId :: s.stack }

/-- `n` consecutive pushes of the same pointer. -/
def RefCountedPushN (s : MarshalState) (p : Nat) : Nat → MarshalState
  | 0 => s
  | n + 1 => RefCountedPush (RefCountedPushN s p n) p

/-- Byte size of the RefCounted wrapper payload, `sizeof(T*)` (LP64). -/
def ptrSize : Nat := 8

/-- Byte size of the WeakPtr wrapper payload, `sizeof(base::WeakPtr<T>)`: a
reference to the control block plus the object pointer (LP64). -/
def weakPtrSize : Nat := 16

/-- Payload stored in a userdata slot: a strong pointer, or a weak reference
whose target is `none` once the native object has been destroyed. -/
inductive UDPayload where
  | strong (p : Nat)
  | weak (target : Option Nat)
deriving DecidableEq

/-- A userdata slot as the unwrap functions see it: its raw length
(`RawLen`), the `__name` tags along its metatable chain, and its payload. -/
structure UDSlot where
  len : Nat
  chain : List String
  payload : UDPayload
deriving DecidableEq

/-- A stack slot offered to unwrap: a userdata or anything else
(`GetType(state, index) != LuaType::UserData`). -/
inductive MSlot where
  | userdata (u : UDSlot)
  | nonUserdata
deriving DecidableEq

/-- `IsMetaTableInheritedFrom<T>` (metatable.h lines 61-70): walk the
metatable chain comparing each level's `__name` against the requested type
name; membership in the chain list models the recursive walk. -/
def IsMetaTableInheritedFrom (name : String) (chain : List String) : Bool :=
  chain.contains name

/-- `Type<T*>::To`, RefCounted specialization (metatable.h lines 88-102):
fail unless the slot is a userdata of length `sizeof(T*)` whose metatable
chain is inherited from the requested type; then return the stored pointer.
A weak payload never carries length `ptrSize` (the wrappers fix the length
at allocation), so that branch maps to failure. -/
def RefCountedTo (name : String) (s : MSlot) : Option Nat :=
  match s with
  | .userdata u =>
    if u.len ≠ ptrSize then none
    else if ¬ IsMetaTableInheritedFrom name u.chain then none
    else
      match u.payload with
      | .strong p => some p
      | .weak _ => none
  | .nonUserdata => none

/-- `Type<T*>::To`, WeakPtr specialization (metatable.h lines 121-136): fail
unless the slot is a userdata of length `sizeof(base::WeakPtr<T>)`; then
dereference the weak pointer, failing if it was invalidated.  No metatable
inheritance check is performed on this path; the requested type name is
accordingly unused.  A strong payload never carries length `weakPtrSize`, so
that branch maps to failure. -/
def WeakPtrTo (name : String) (s : MSlot) : Option Nat :=
  match s, name with
  | .userdata u, _ =>
    if u.len ≠ weakPtrSize then none
    else
      match u.payload with
      | .weak (some t) => some t
      | .weak Option.none => none
      | .strong _ => none
  | .nonUserdata, _ => none

inductive ColumnType where
  | text
  | edit
  | checkbox
  | custom
deriving DecidableEq

/-- `Table::ColumnOptions`, restricted to the fields the verified paths
read: the display type and the configured width (`-1` means automatic). -/
structure ColumnOptions where
  type : ColumnType
  width : Int
deriving DecidableEq

instance : Inhabited ColumnOptions := ⟨⟨.text, -1⟩⟩

/-- The abstract table model: row count and cell read.  Writes are recorded
as emitted call lists by the operations below rather than mutating state,
since the model is an external collaborator. -/
structure TableModel where
  rowCount : Nat
  getValue : Nat → Nat → BValue

/-- `base::Value::GetBool` (CHECK-fails on a non-boolean value; theorems
about the toggle path assume the cell is boolean). -/
def getBoolD : BValue → Bool
  | .bool b => b
  | _ => false

/-- The width command `UpdateColumnsWidth` issues for one column:
`ListView_SetColumnWidth` with a pixel width, or with
`LVSCW_AUTOSIZE_USEHEADER` which stretches the column to fill the control. -/
inductive WidthCmd where
  | fixed (w : Int)
  | stretchUseHeader
deriving DecidableEq

/-- `TableImpl::UpdateColumnsWidth` (table_win.cc lines 69-101).  `sf`
models the truncating multiplication by `scale_factor()`, `kDefault` is
`kDefaultColumnWidth` (table_win.h, outside the excerpt), and `tw` models
`ListView_GetStringWidth`.  Every column but the last gets a fixed width:
the configured width scaled, or for automatic width the scaled default,
raised to the first row's rendered text width plus padding when the model
has data and the cell is a string.  The last column gets its scaled
configured width, or the USEHEADER stretch when automatic. -/
def UpdateColumnsWidth (sf : Int → Int) (kDefault : Int) (tw : String → Int)
    (model : Option TableModel) (cols : List ColumnOptions) : List WidthCmd :=
  (List.range cols.length).map fun i =>
    let w := sf (cols.getD i default).width
    if i + 1 = cols.length then
      if w < 0 then .stretchUseHeader else .fixed w
    else if w < 0 then
      let base := sf kDefault
      let best :=
        match model with
        | some m =>
          if 0 < m.rowCount then
            match m.getValue i 0 with
            | .str s => max base (tw s + sf (if i = 0 then 7 else 14))
            | _ => base
          else base
        | none => base
      .fixed best
    else .fixed w

/-- The cell-edit state of `TableImpl`: `edit_row_` / `edit_column_`,
both `-1` when no edit is in progress. -/
structure EditState where
  editRow : Int
  editCol : Int
deriving DecidableEq

def idleEdit : EditState := ⟨-1, -1⟩

/-- The `LVHITTESTINFO` result used by `OnBeginEdit`: the item and subitem
under the cursor. -/
structure HitInfo where
  item : Int
  subitem : Int
deriving DecidableEq

/-- `TableImpl::OnBeginEdit` (table_win.cc lines 242-280): reject (keeping
the state) when the hit-tested subitem is outside the view's columns, when
the hit-tested item differs from the reported row, or when the column type
is not `Edit`; otherwise record the cell being edited.  The boolean is true
when editing begins (the C++ handler returning FALSE).  The edit-window
subclassing for subitems is platform plumbing with no bearing on the edit
state or model calls. -/
def OnBeginEdit (cols : List ColumnOptions) (hit : HitInfo) (row : Int)
    (st : EditState) : EditState × Bool :=
  if hit.subitem < 0 ∨ (cols.length : Int) ≤ hit.subitem ∨ row ≠ hit.item then
    (st, false)
  else if (cols.getD hit.subitem.toNat default).type ≠ .edit then
    (st, false)
  else
    ({ editRow := row, editCol := hit.subitem }, true)

/-- `TableImpl::OnEndEdit` (table_win.cc lines 282-303): when the control
reports edited text (`pszText` non-null, i.e. not a cancelled edit) and a
model is attached, issue exactly one `SetValue` on the edited cell with the
new text; in every case return to the idle state.  The returned list holds
the `SetValue` calls as (column, row, value). -/
def OnEndEdit (model : Option TableModel) (newText : Option String)
    (st : EditState) : EditState × List (Int × Int × BValue) :=
  let calls :=
    match newText, model with
    | some t, some _ => [(st.editCol, st.editRow, BValue.str t)]
    | _, _ => []
  (idleEdit, calls)

structure PointM where
  x : Int
  y : Int
deriving DecidableEq

structure SizeM where
  w : Int
  h : Int
deriving DecidableEq

structure RectM where
  x : Int
  y : Int
  w : Int
  h : Int
deriving DecidableEq

/-- `Rect::Contains`: the point lies in the half-open pixel rectangle. -/
def RectM.Contains (r : RectM) (p : PointM) : Bool :=
  decide (r.x ≤ p.x) && decide (p.x < r.x + r.w) &&
    decide (r.y ≤ p.y) && decide (p.y < r.y + r.h)

/-- `TableImpl::GetCheckboxBounds` (table_win.cc lines 326-332): the
checkbox image centered in the cell rectangle (C++ integer division
truncates toward zero). -/
def GetCheckboxBounds (cell : RectM) (cb : SizeM) : RectM :=
  ⟨cell.x + Int.tdiv (cell.w - cb.w) 2, cell.y + Int.tdiv (cell.h - cb.h) 2,
    cb.w, cb.h⟩

/-- Outcome of a click: the `SetValue` calls issued, the
`on_toggle_checkbox` emissions as (column, row), and the handler's return
value. -/
structure ClickResult where
  setCalls : List (Nat × Nat × BValue)
  emits : List (Nat × Nat)
  handled : Bool

/-- `TableImpl::OnItemClick` (table_win.cc lines 305-318): nothing happens
unless the clicked column is a checkbox column, the point lies inside the
checkbox bounds for that cell, and a model is attached; then the boolean is
read from the model, its negation written back through `SetValue`, and the
toggle observer notified once.  `cell` stands for `GetCellBounds(column,
row)`, a platform query; indices are naturals since the ListView reports
nonnegative indices for cell clicks. -/
def OnItemClick (cols : List ColumnOptions) (cell : RectM) (cb : SizeM)
    (model : Option TableModel) (pt : PointM) (column row : Nat) : ClickResult :=
  if (cols.getD column default).type ≠ .checkbox then ⟨[], [], false⟩
  else if ¬ (GetCheckboxBounds cell cb).Contains pt then ⟨[], [], false⟩
  else
    match model with
    | some m =>
      let old := getBoolD (m.getValue column row)
      ⟨[(column, row, .bool (!old))], [(column, row)], true⟩
    | none => ⟨[], [], false⟩

/-- The GTK table state relevant to row height: the stored "row-height"
object datum and the number of columns added so far. -/
structure GtkTableState where
  rowHeight : Int
  columnCount : Nat
deriving DecidableEq

/-- `Table::SetRowHeight`, GTK backend (table_gtk.cc lines 215-222): once
any column exists the call logs an error and changes nothing; before that it
stores the (int-cast) height.  The second component lists the error-log
messages emitted. -/
def GtkSetRowHeight (s : GtkTableState) (h : Int) : GtkTableState × List String :=
  if 0 < s.columnCount then
    (s, ["Setting row height only works before adding any column"])
  else
    ({ s with rowHeight := h }, [])

/-- `Table::GetRowHeight`, GTK backend (table_gtk.cc lines 224-227). -/
def GtkGetRowHeight (s : GtkTableState) : Int :=
  s.rowHeight

/-- The Win32 table state relevant to row height: the icon height of the
row-height image list when one was created, and the column count. -/
structure WinTableState where
  imageListHeight : Option Int
  columnCount : Nat
deriving DecidableEq

/-- `TableImpl::SetRowHeight`, Win32 backend (table_win.cc lines 103-111,
reached from `Table::SetRowHeight` at lines 429-435): create or resize the
image list that forces the row height.  There is no column-count guard and
nothing is logged. -/
def WinSetRowHeight (s : WinTableState) (h : Int) : WinTableState × List String :=
  ({ s with imageListHeight := some h }, [])

/-- `TableImpl::GetRowHeight`, Win32 backend (table_win.cc lines 113-123):
the image-list icon height when set, otherwise the measured height of a text
line (`defaultTextHeight`, a platform measurement). -/
def WinGetRowHeight (s : WinTableState) (defaultTextHeight : Int) : Int :=
  match s.imageListHeight with
  | some h => h
  | none => defaultTextHeight

/-! ## Theorems -/

/-- Claim C4, counterexample: reading a slot of a type the bridge does not
support (here a function/userdata slot, and likewise nil) does not report a
boolean failure — the conversion succeeds and yields the empty value. -/
theorem c4_counterexample :
    ValueTo LuaValue.other = some BValue.none ∧
    ValueTo LuaValue.nil = some BValue.none :=
  ⟨rfl, rfl⟩

/-- Claim C4 (amended): reading a scripting-stack slot whose type is
unsupported by the value bridge succeeds (the C++ conversion returns true)
with the output set to the empty none value; no failure is reported. -/
theorem c4_unsupported_reads_none (v : LuaValue) (h : bridgeUnsupported v = true) :
    ValueTo v = some BValue.none := by
  cases v <;> simp_all [bridgeUnsupported, ValueTo]

/-- Witness for C4 at the function/userdata slot. -/
theorem c4_witness :
    bridgeUnsupported LuaValue.other = true ∧
    ValueTo LuaValue.other = some BValue.none :=
  ⟨rfl, c4_unsupported_reads_none LuaValue.other rfl⟩

/-- Claim C5, counterexample: a live weak handle whose metatable chain does
not contain the requested type name (requested "B", chain only "A") still
unwraps successfully — the weak path performs no inheritance-chain check, so
the type-mismatch failure mode claimed for unwrap does not fail there. -/
theorem c5_counterexample :
    WeakPtrTo "B" (.userdata ⟨weakPtrSize, ["A"], .weak (some 5)⟩) = some 5 ∧
    IsMetaTableInheritedFrom "B" ["A"] = false :=
  ⟨rfl, rfl⟩

/-- Claim C5 (amended): strong unwrap fails on a byte-length mismatch and on
an inheritance-chain mismatch; weak unwrap fails on a byte-length mismatch
and once the native object is destroyed, but performs no inheritance-chain
check — a live weak handle unwraps whatever its chain; every failure is the
same uniform `none` (the C++ functions returning false). -/
theorem c5_unwrap_failure_modes (name : String) :
    (∀ u : UDSlot, u.len ≠ ptrSize → RefCountedTo name (.userdata u) = Option.none) ∧
    (∀ u : UDSlot, IsMetaTableInheritedFrom name u.chain = false →
      RefCountedTo name (.userdata u) = Option.none) ∧
    (∀ u : UDSlot, u.len ≠ weakPtrSize → WeakPtrTo name (.userdata u) = Option.none) ∧
    (∀ chain, WeakPtrTo name (.userdata ⟨weakPtrSize, chain, .weak Option.none⟩) =
      Option.none) ∧
    (∀ chain t, WeakPtrTo name (.userdata ⟨weakPtrSize, chain, .weak (some t)⟩) =
      some t) := by
  refine ⟨fun u h1 => ?_, fun u h2 => ?_, fun u h3 => ?_, fun chain => ?_, fun chain t => ?_⟩
  · simp [RefCountedTo, h1]
  · simp [RefCountedTo, h2]
  · simp [WeakPtrTo, h3]
  · simp [WeakPtrTo]
  · simp [WeakPtrTo]

/-- Witness for C5: size-mismatch and chain-mismatch failures of strong
unwrap, size-mismatch and destroyed-target failures of weak unwrap, at
concrete slots. -/
theorem c5_witness :
    RefCountedTo "A" (.userdata ⟨3, ["A"], .strong 7⟩) = Option.none ∧
    RefCountedTo "A" (.userdata ⟨8, ["B"], .strong 7⟩) = Option.none ∧
    WeakPtrTo "A" (.userdata ⟨3, ["A"], .weak (some 7)⟩) = Option.none ∧
    WeakPtrTo "A" (.userdata ⟨16, ["A"], .weak Option.none⟩) = Option.none :=
  ⟨(c5_unwrap_failure_modes "A").1 ⟨3, ["A"], .strong 7⟩ (by decide),
   (c5_unwrap_failure_modes "A").2.1 ⟨8, ["B"], .strong 7⟩ (by decide),
   (c5_unwrap_failure_modes "A").2.2.1 ⟨3, ["A"], .weak (some 7)⟩ (by decide),
   (c5_unwrap_failure_modes "A").2.2.2.1 ["A"]⟩

/-- Claim C9, counterexample: on the Win32 backend, setting the row height
while a column exists logs nothing and is not a no-op — the stored image
list changes and the row height reported afterwards is the new value. -/
theorem c9_counterexample :
    WinSetRowHeight ⟨Option.none, 1⟩ 30 = (⟨some 30, 1⟩, []) ∧
    WinGetRowHeight ⟨some 30, 1⟩ 20 = 30 ∧
    WinGetRowHeight ⟨Option.none, 1⟩ 20 = 20 :=
  ⟨rfl, rfl, rfl⟩

/-- Claim C9 (amended): only the GTK backend treats setting the row height
after a column exists as misuse — it logs an error and leaves the stored
height unchanged, and is not fatal; the Win32 backend accepts the call at
any time, stores the height with no error logged, and reports it back. -/
theorem c9_row_height_guard (s : GtkTableState) (hInt : Int) (w : WinTableState)
    (d : Int) (hc : 0 < s.columnCount) :
    GtkSetRowHeight s hInt =
      (s, ["Setting row height only works before adding any column"]) ∧
    WinSetRowHeight w hInt = ({ w with imageListHeight := some hInt }, []) ∧
    WinGetRowHeight (WinSetRowHeight w hInt).1 d = hInt := by
  refine ⟨?_, rfl, rfl⟩
  simp [GtkSetRowHeight, hc]

/-- Witness for C9 at a GTK table with one column and a Win32 table. -/
theorem c9_witness :
    0 < (1 : Nat) ∧
    GtkSetRowHeight ⟨24, 1⟩ 30 =
      (⟨24, 1⟩, ["Setting row height only works before adding any column"]) ∧
    WinSetRowHeight ⟨Option.none, 1⟩ 30 = (⟨some 30, 1⟩, []) ∧
    WinGetRowHeight (WinSetRowHeight ⟨Option.none, 1⟩ 30).1 20 = 30 :=
  ⟨by decide, c9_row_height_guard ⟨24, 1⟩ 30 ⟨Option.none, 1⟩ 20 (by decide)⟩

/-- Claim C6, counterexample: with a model holding zero rows, beginning an
edit at row 0 of an editable column whose hit test agrees is accepted — the
state leaves idle — even though the row is outside the model's bounds;
`OnBeginEdit` never consults the model. -/
theorem c6_counterexample :
    (⟨0, fun _ _ => BValue.none⟩ : TableModel).rowCount = 0 ∧
    OnBeginEdit [⟨.edit, -1⟩] ⟨0, 0⟩ 0 idleEdit = (⟨0, 0⟩, true) :=
  ⟨rfl, by decide⟩

/-- Claim C6 (amended): beginning an edit is accepted iff the hit-tested
column lies within the view's columns, the hit-tested item equals the
reported row, and that column's type is editable — the model's row bounds
are not consulted; when rejected the edit state is unchanged.  Ending an
edit with reported text and an attached model issues exactly one `SetValue`
with the new text; a cancelled edit issues none. -/
theorem c6_edit_lifecycle (cols : List ColumnOptions) (hit : HitInfo) (row : Int)
    (st : EditState) (m : TableModel) (t : String) :
    ((OnBeginEdit cols hit row st).2 = true ↔
      0 ≤ hit.subitem ∧ hit.subitem < (cols.length : Int) ∧ row = hit.item ∧
        (cols.getD hit.subitem.toNat default).type = .edit) ∧
    ((OnBeginEdit cols hit row st).2 = false → (OnBeginEdit cols hit row st).1 = st) ∧
    OnEndEdit (some m) (some t) st =
      (idleEdit, [(st.editCol, st.editRow, BValue.str t)]) ∧
    (∀ model, OnEndEdit model Option.none st = (idleEdit, [])) := by
  refine ⟨?_, ?_, rfl, fun model => ?_⟩
  · unfold OnBeginEdit
    split_ifs with h1 h2
    · constructor
      · intro hfalse
        exact absurd hfalse (by simp)
      · rintro ⟨ha, hb, hc, -⟩
        rcases h1 with h | h | h <;> omega
    · constructor
      · intro hfalse
        exact absurd hfalse (by simp)
      · rintro ⟨-, -, -, hd⟩
        exact absurd hd h2
    · push_neg at h1
      obtain ⟨ha, hb, hc⟩ := h1
      exact ⟨fun _ => ⟨by omega, hb, hc, not_not.mp h2⟩, fun _ => rfl⟩
  · intro hfalse
    unfold OnBeginEdit at hfalse ⊢
    split_ifs at hfalse ⊢ <;> rfl
  · cases model <;> rfl

/-- Witness for C6: an accepted edit on the editable column, a rejected edit
on the text column with the state kept, a commit issuing one set call, and a
cancel issuing none. -/
theorem c6_witness :
    (OnBeginEdit [⟨.text, -1⟩, ⟨.edit, -1⟩] ⟨2, 1⟩ 2 idleEdit).2 = true ∧
    (OnBeginEdit [⟨.text, -1⟩, ⟨.edit, -1⟩] ⟨2, 0⟩ 2 idleEdit).2 = false ∧
    (OnBeginEdit [⟨.text, -1⟩, ⟨.edit, -1⟩] ⟨2, 0⟩ 2 idleEdit).1 = idleEdit ∧
    OnEndEdit (some ⟨3, fun _ _ => BValue.none⟩) (some "new") ⟨2, 1⟩ =
      (idleEdit, [(1, 2, BValue.str "new")]) ∧
    OnEndEdit (some ⟨3, fun _ _ => BValue.none⟩) Option.none ⟨2, 1⟩ =
      (idleEdit, []) := by
  have h := c6_edit_lifecycle [⟨.text, -1⟩, ⟨.edit, -1⟩] ⟨2, 1⟩ 2 idleEdit
    ⟨3, fun _ _ => BValue.none⟩ "new"
  have h0 := c6_edit_lifecycle [⟨.text, -1⟩, ⟨.edit, -1⟩] ⟨2, 0⟩ 2 idleEdit
    ⟨3, fun _ _ => BValue.none⟩ "new"
  have hE := c6_edit_lifecycle [⟨.text, -1⟩, ⟨.edit, -1⟩] ⟨2, 1⟩ 2 ⟨2, 1⟩
    ⟨3, fun _ _ => BValue.none⟩ "new"
  exact ⟨h.1.mpr ⟨by decide, by decide, rfl, rfl⟩, by decide,
    h0.2.1 (by decide), hE.2.2.1, hE.2.2.2 (some ⟨3, fun _ _ => BValue.none⟩)⟩

/-- Claim C7: for a checkbox column with a model attached and a boolean cell
value, a click inside the checkbox hit-region reads the value, writes back
exactly one `SetValue` with its negation and notifies the toggle observer
exactly once; a click outside the hit-region issues no write and no
notification. -/
theorem c7_checkbox_toggle (cols : List ColumnOptions) (cell : RectM) (cb : SizeM)
    (m : TableModel) (pt : PointM) (column row : Nat) (b : Bool)
    (hty : (cols.getD column default).type = .checkbox)
    (hval : m.getValue column row = .bool b) :
    ((GetCheckboxBounds cell cb).Contains pt = true →
      OnItemClick cols cell cb (some m) pt column row =
        ⟨[(column, row, .bool (!b))], [(column, row)], true⟩) ∧
    ((GetCheckboxBounds cell cb).Contains pt = false →
      OnItemClick cols cell cb (some m) pt column row = ⟨[], [], false⟩) := by
  constructor
  · intro hc
    simp only [OnItemClick, hty]
    simp [hc, hval, getBoolD]
  · intro hc
    simp only [OnItemClick, hty]
    simp [hc]

/-- Witness for C7: a 4x4 checkbox centered in a 10x10 cell; a click at
(4,4) toggles true to false with one notification, a click at (0,0) does
nothing. -/
theorem c7_witness :
    (GetCheckboxBounds ⟨0, 0, 10, 10⟩ ⟨4, 4⟩).Contains ⟨4, 4⟩ = true ∧
    OnItemClick [⟨.checkbox, -1⟩] ⟨0, 0, 10, 10⟩ ⟨4, 4⟩
      (some ⟨1, fun _ _ => BValue.bool true⟩) ⟨4, 4⟩ 0 0 =
      ⟨[(0, 0, .bool false)], [(0, 0)], true⟩ ∧
    (GetCheckboxBounds ⟨0, 0, 10, 10⟩ ⟨4, 4⟩).Contains ⟨0, 0⟩ = false ∧
    OnItemClick [⟨.checkbox, -1⟩] ⟨0, 0, 10, 10⟩ ⟨4, 4⟩
      (some ⟨1, fun _ _ => BValue.bool true⟩) ⟨0, 0⟩ 0 0 = ⟨[], [], false⟩ := by
  have h := c7_checkbox_toggle [⟨.checkbox, -1⟩] ⟨0, 0, 10, 10⟩ ⟨4, 4⟩
    ⟨1, fun _ _ => BValue.bool true⟩ ⟨4, 4⟩ 0 0 true rfl rfl
  have h2 := c7_checkbox_toggle [⟨.checkbox, -1⟩] ⟨0, 0, 10, 10⟩ ⟨4, 4⟩
    ⟨1, fun _ _ => BValue.bool true⟩ ⟨0, 0⟩ 0 0 true rfl rfl
  exact ⟨by decide, h.1 (by decide), by decide, h2.2 (by decide)⟩

/-- Bumping the count of `p` raises exactly its entry by one. -/
theorem alookup_addRef (l : List (Nat × Nat)) (p : Nat) :
    alookup (AddRef l p) p = some ((alookup l p).getD 0 + 1) := by
  induction l with
  | nil => simp [AddRef, alookup]
  | cons kv rest ih =>
    obtain ⟨k, v⟩ := kv
    by_cases h : p = k
    · simp [AddRef, alookup, h]
    · simp [AddRef, alookup, h, ih]

/-- Closed form of `k + 1` consecutive strong pushes of an unwrapped
non-null pointer: one side-table entry, one `AddRef`, one fresh id, and
`k + 1` copies of the same wrapper on the stack. -/
theorem refCountedPushN_closed (s : MarshalState) (p : Nat) (k : Nat)
    (hp : p ≠ 0) (hmiss : alookup s.wrapperTable p = Option.none) :
    RefCountedPushN s p (k + 1) =
      { wrapperTable := (p, s.nextId) :: s.wrapperTable
        refCount := AddRef s.refCount p
        nextId := s.nextId + 1
        stack := List.replicate (k + 1) (WrapSlot.userdata s.nextId) ++ s.stack } := by
  induction k with
  | zero =>
    simp [RefCountedPushN, RefCountedPush, hp, hmiss]
  | succ k ih =>
    have hstep : RefCountedPushN s p (k + 1 + 1) =
        RefCountedPush (RefCountedPushN s p (k + 1)) p := rfl
    rw [hstep, ih]
    simp [RefCountedPush, hp, alookup, List.replicate_succ]

/-- Claim C1: wrapping an unwrapped non-null native pointer any positive
number of consecutive times (no intervening release) leaves every pushed
handle with the same identity — the wrapper allocated by the first push —
and the object's reference count incremented exactly once. -/
theorem c1_strong_wrap_dedup (s : MarshalState) (p : Nat) (n : Nat)
    (hp : p ≠ 0) (hmiss : alookup s.wrapperTable p = Option.none) (hn : 1 ≤ n) :
    rc (RefCountedPushN s p n) p = rc s p + 1 ∧
    (RefCountedPushN s p n).stack.head? = some (.userdata s.nextId) := by
  obtain ⟨k, rfl⟩ : ∃ k, n = k + 1 := ⟨n - 1, by omega⟩
  rw [refCountedPushN_closed s p k hp hmiss]
  constructor
  · simp [rc, alookup_addRef]
  · simp [List.replicate_succ]

/-- Witness for C1: two consecutive pushes of pointer 1 from the empty
state. -/
theorem c1_witness :
    (1 : Nat) ≠ 0 ∧ alookup ([] : List (Nat × Nat)) 1 = Option.none ∧ (1 : Nat) ≤ 2 ∧
    (rc (RefCountedPushN ⟨[], [], 0, []⟩ 1 2) 1 = rc ⟨[], [], 0, []⟩ 1 + 1 ∧
      (RefCountedPushN ⟨[], [], 0, []⟩ 1 2).stack.head? = some (.userdata 0)) :=
  ⟨by decide, rfl, by decide,
    c1_strong_wrap_dedup ⟨[], [], 0, []⟩ 1 2 (by decide) rfl (by decide)⟩

/-- Claim C8: with `sf` the scaling by the display scale factor, every
column with an explicit (non-negative) configured width is set to exactly
its scaled width; every non-last auto-width column is set to a fixed width
of at least the scaled configured default whenever the model has at least
one row; and the only column that can receive the stretch-to-fill command
is the last one. -/
theorem c8_column_width_policy (sf : Int → Int) (kDefault : Int) (tw : String → Int)
    (model : Option TableModel) (cols : List ColumnOptions)
    (hsf : ∀ w : Int, sf w < 0 ↔ w < 0) :
    (∀ i : Nat, i < cols.length → 0 ≤ (cols.getD i default).width →
      (UpdateColumnsWidth sf kDefault tw model cols)[i]? =
        some (.fixed (sf (cols.getD i default).width))) ∧
    (∀ i : Nat, i + 1 < cols.length → (cols.getD i default).width < 0 →
      ∀ m : TableModel, model = some m → 0 < m.rowCount →
      ∃ w : Int, (UpdateColumnsWidth sf kDefault tw model cols)[i]? =
        some (.fixed w) ∧ sf kDefault ≤ w) ∧
    (∀ i : Nat, (UpdateColumnsWidth sf kDefault tw model cols)[i]? =
      some WidthCmd.stretchUseHeader → i + 1 = cols.length) := by
  refine ⟨fun i hi hw => ?_, fun i hi hw m hm hr => ?_, fun i hstretch => ?_⟩
  · have hnneg : ¬ sf (cols.getD i default).width < 0 := by
      rw [hsf]
      omega
    simp only [UpdateColumnsWidth, List.getElem?_map, List.getElem?_range, hi,
      Option.map_some']
    split_ifs <;> simp_all
  · subst hm
    have hi2 : i < cols.length := by omega
    have hlast : i + 1 ≠ cols.length := by omega
    have hneg : sf (cols[i].width) < 0 := by
      have hx := (hsf _).mpr hw
      simp only [List.getD_eq_getElem?_getD, List.getElem?_eq_getElem hi2,
        Option.getD_some] at hx
      exact hx
    cases hv : m.getValue i 0 <;>
      simp [UpdateColumnsWidth, List.getElem?_map, List.getElem?_range, hi2, hlast,
        hr, hv] <;>
      rw [if_pos hneg] <;>
      first
        | exact ⟨_, rfl, le_max_left _ _⟩
        | exact ⟨_, rfl, le_refl _⟩
  · by_cases hi : i < cols.length
    · by_cases hlast : i + 1 = cols.length
      · exact hlast
      · exfalso
        simp only [UpdateColumnsWidth, List.getElem?_map, List.getElem?_range, hi,
          Option.map_some'] at hstretch
        simp only [hlast, if_false] at hstretch
        split_ifs at hstretch <;> simp_all
    · exfalso
      have hnone : (UpdateColumnsWidth sf kDefault tw model cols)[i]? = Option.none := by
        refine List.getElem?_eq_none ?_
        simp only [UpdateColumnsWidth, List.length_map, List.length_range]
        omega
      rw [hnone] at hstretch
      cases hstretch

/-- Witness for C8: three columns (explicit 10, auto, auto-last) at scale 1,
default 50, first-row text measuring 100: the explicit column gets 10, the
middle auto column gets a fixed width of at least 50, and the stretch
command sits at the last position. -/
theorem c8_witness :
    (∀ w : Int, (fun x : Int => x) w < 0 ↔ w < 0) ∧
    (UpdateColumnsWidth (fun x => x) 50 (fun _ => 100)
        (some ⟨1, fun _ _ => BValue.str "ab"⟩)
        [⟨.text, 10⟩, ⟨.edit, -1⟩, ⟨.text, -1⟩])[0]? = some (.fixed 10) ∧
    (∃ w : Int, (UpdateColumnsWidth (fun x => x) 50 (fun _ => 100)
        (some ⟨1, fun _ _ => BValue.str "ab"⟩)
        [⟨.text, 10⟩, ⟨.edit, -1⟩, ⟨.text, -1⟩])[1]? = some (.fixed w) ∧
      (50 : Int) ≤ w) ∧
    (2 : Nat) + 1 = 3 := by
  have h := c8_column_width_policy (fun x => x) 50 (fun _ => 100)
    (some ⟨1, fun _ _ => BValue.str "ab"⟩) [⟨.text, 10⟩, ⟨.edit, -1⟩, ⟨.text, -1⟩]
    (fun w => Iff.rfl)
  refine ⟨fun w => Iff.rfl, h.1 0 (by decide) (by decide), ?_, h.2.2 2 (by decide)⟩
  obtain ⟨w, hw1, hw2⟩ := h.2.1 1 (by decide) (by decide) _ rfl (by decide)
  exact ⟨w, hw1, hw2⟩

end Yue
